import Mathlib

/-!
Verification development for the ClarityCoach repository.

The development shallowly embeds the deterministic core of the program:

* `core/dialog.py`  — the regex-based intent resolver `detect_intents` and the
  response dispatcher `handle_turn`;
* `app.py`          — the mood pre-screen `detect_mood`, the offer state
  machine of the chat section (`chat_step`), `_is_affirmation`,
  `_extract_minutes`, and the streak loop
  `compute_7day_streak_from_journal`;
* `core/tools.py`   — the `FocusTimer` state machine.

Modelling conventions:

* Python regular expressions are embedded as alternations of atom sequences
  (`RAtom`); every pattern of the source uses only literals, the character
  class `[- ]`, the optional wildcard `.?`, optional literal groups such as
  `(ed)?`, and `\s*`, all wrapped in word boundaries, so the embedding
  covers exactly these constructs.  Nested alternation `argu(?:e|ment)` is
  expanded into the two alternatives.  Case-insensitive search over text that
  the source lower-cases is embedded by lower-casing the text and keeping the
  (all lower-case) pattern literals.
* Response strings of the handlers are abstracted as tags (`Handler`,
  `Reply`, `StatusMsg`): the claims only speak about which response branch is
  produced, never about the prose of a message.
* Wall-clock time (`time.time()`) is modelled as integer seconds passed
  explicitly to every operation that reads the clock; the `int(...)`
  truncations of the source become the identity.
* Mutation of the `FocusTimer` dataclass and of the Streamlit session state
  becomes explicit state passing: each operation returns the new state.
-/

/-! ## Regex embedding -/

/-- Word character of `\b` / `\w` (ASCII, which covers all pattern literals
and every input considered here). -/
def isWordChar (c : Char) : Bool := c.isAlphanum || c = '_'

/-- One atom of a regex alternative: a literal character, a character class,
the optional wildcard `.?`, an optional literal group such as `(ed)?` or
`s?`, or `\s*`. -/
inductive RAtom
  | lit (c : Char)
  | cls (cs : List Char)
  | optAny
  | optStr (s : List Char)
  | wsStar
deriving Repr

/-- A pattern is an alternation of sequences of atoms, implicitly wrapped in
`\b ... \b` as every pattern of the source is. -/
abbrev RPat := List (List RAtom)

/-- Literal atoms of a string. -/
def lits (s : String) : List RAtom := s.toList.map RAtom.lit

/-- All suffixes reachable by consuming leading whitespace (the
possibilities of `\s*`). -/
def wsTails : List Char → List (List Char)
  | [] => [[]]
  | c :: cs => (c :: cs) :: (if c.isWhitespace then wsTails cs else [])

/-- Consume an exact literal sequence, returning the remainder. -/
def dropLit : List Char → List Char → Option (List Char)
  | [], cs => some cs
  | _ :: _, [] => none
  | l :: ls, c :: cs => if c = l then dropLit ls cs else none

/-- Remainders after matching one atom at the head of the text. -/
def matchAtom : RAtom → List Char → List (List Char)
  | .lit _, [] => []
  | .lit a, c :: cs => if c = a then [cs] else []
  | .cls _, [] => []
  | .cls as, c :: cs => if as.contains c then [cs] else []
  | .optAny, [] => [[]]
  | .optAny, c :: cs => (c :: cs) :: (if c ≠ '\n' then [cs] else [])
  | .optStr s, cs =>
      cs :: (match dropLit s cs with
             | some r => [r]
             | none => [])
  | .wsStar, cs => wsTails cs

/-- Remainders after matching a whole alternative at the head of the text. -/
def matchAtoms : List RAtom → List Char → List (List Char)
  | [], cs => [cs]
  | a :: as, cs => (matchAtom a cs).flatMap (matchAtoms as)

/-- Closing word boundary: the remainder starts with a non-word character or
is empty (every alternative of the source ends in a word character). -/
def endB : List Char → Bool
  | [] => true
  | c :: _ => !(isWordChar c)

/-- Does the alternative match at this position, with the closing `\b`? -/
def altHere (alt : List RAtom) (cs : List Char) : Bool :=
  (matchAtoms alt cs).any endB

/-- `re.search` of a `\b(...)\b` pattern: try every position whose preceding
character is not a word character (every alternative of the source starts
with a word character, so `\b` holds exactly there). -/
def searchWB (alts : RPat) : Bool → List Char → Bool
  | prevW, [] => !prevW && alts.any (fun alt => altHere alt [])
  | prevW, c :: rest =>
      (!prevW && alts.any (fun alt => altHere alt (c :: rest)))
      || searchWB alts (isWordChar c) rest

/-- Search anywhere in the text (position 0 counts as a word boundary). -/
def rxSearch (alts : RPat) (cs : List Char) : Bool := searchWB alts false cs

/-- Lower-cased character list of a string: the `text.lower()` normalization
of the source (`re.I` patterns with lower-case literals behave identically on
the lower-cased text). -/
def lowerStr (s : String) : List Char := s.toList.map Char.toLower

/-! ## Patterns of `core/dialog.py` -/

/-- `RISK` pattern of `core/dialog.py`. -/
def RISK : RPat :=
  [lits "suicide", lits "kill myself", lits "end it all", lits "want to die",
   lits "self" ++ [.cls ['-', ' ']] ++ lits "harm", lits "cutting"]

/-- `PANIC` pattern of `core/dialog.py`. -/
def PANIC : RPat :=
  [lits "panic attack", lits "can" ++ [.optAny] ++ lits "t breathe",
   lits "heart racing", lits "chest tight", lits "dizzy", lits "hyperventilat"]

/-- `HEALTH_ALERT` pattern of `core/dialog.py`. -/
def HEALTH_ALERT : RPat :=
  [lits "chest pain", lits "severe headache", lits "fainting",
   lits "passed out", lits "stroke", lits "seizure"]

/-- The closed `IntentLabel` enumeration of the program. -/
inductive IntentLabel
  | crisis_risk | panic_attack | health_concern
  | anxiety_worry | low_mood_depression | stress_overwhelm
  | loneliness_isolation | relationship_conflict | work_school_performance
  | financial_stress | sleep_issue | boredom_motivation
  | planning_productivity | gratitude_reflection | small_talk
deriving DecidableEq, Repr

/-- `INTENT_PATTERNS` of `core/dialog.py`, in dictionary insertion order. -/
def INTENT_PATTERNS : List (IntentLabel × RPat) :=
  [(.anxiety_worry,
     [lits "anxious", lits "anxiety", lits "worry", lits "worried",
      lits "panic", lits "nervous", lits "overthink"]),
   (.low_mood_depression,
     [lits "depressed", lits "worthless", lits "useless", lits "empty",
      lits "numb", lits "hopeless"]),
   (.stress_overwhelm,
     [lits "stress" ++ [.optStr ['e', 'd']], lits "overwhelmed",
      lits "burn" ++ [.optStr ['e', 'd'], .wsStar] ++ lits "out",
      lits "too much", lits "exhausted"]),
   (.loneliness_isolation,
     [lits "lonely", lits "alone", lits "isolated", lits "no one cares"]),
   (.relationship_conflict,
     [lits "boyfriend", lits "girlfriend", lits "partner", lits "spouse",
      lits "breakup", lits "argue", lits "argument", lits "fight"]),
   (.work_school_performance,
     [lits "manager", lits "boss", lits "work", lits "salary",
      lits "deadline", lits "job", lits "exam", lits "quiz",
      lits "assignment", lits "grade", lits "professor", lits "class"]),
   (.financial_stress,
     [lits "rent", lits "bill" ++ [.optStr ['s']], lits "loan", lits "debt",
      lits "tuition", lits "money"]),
   (.sleep_issue,
     [lits "sleep", lits "insomnia",
      lits "can" ++ [.optAny] ++ lits "t sleep", lits "nightmare",
      lits "wake up", lits "tired"]),
   (.boredom_motivation,
     [lits "bored", lits "no motivation",
      lits "can" ++ [.optAny] ++ lits "t start", lits "stuck"]),
   (.planning_productivity,
     [lits "plan", lits "schedule", lits "timer", lits "focus",
      lits "pomodoro", lits "study plan"]),
   (.gratitude_reflection,
     [lits "grateful", lits "gratitude", lits "appreciate"]),
   (.small_talk,
     [lits "hi", lits "hello", lits "hey", lits "how are you",
      lits "what" ++ [.optAny] ++ lits "s up"])]

/-- The fixed `priority` list inside `detect_intents`. -/
def priority : List IntentLabel :=
  [.anxiety_worry, .low_mood_depression, .stress_overwhelm,
   .loneliness_isolation, .relationship_conflict, .work_school_performance,
   .financial_stress, .sleep_issue, .boredom_motivation,
   .planning_productivity, .gratitude_reflection, .small_talk]

/-- The `found` list of `detect_intents`: the keys of `INTENT_PATTERNS`
whose pattern matches the (lower-cased) text, in dictionary order. -/
def foundLabels (tl : List Char) : List IntentLabel :=
  (INTENT_PATTERNS.filter (fun kp => rxSearch kp.2 tl)).map (·.1)

/-- `detect_intents` of `core/dialog.py`:  crisis/panic/health short-circuit,
then the priority-ordered topical pick truncated to two, with
`small_talk` as the default (`found_sorted[:2] or ["small_talk"]`). -/
def detect_intents (text : String) : List IntentLabel :=
  let tl := lowerStr text
  if rxSearch RISK tl then [.crisis_risk]
  else if rxSearch PANIC tl then [.panic_attack]
  else if rxSearch HEALTH_ALERT tl then [.health_concern]
  else
    let found := foundLabels tl
    let found_sorted := priority.filter (fun i => found.contains i)
    if found_sorted.take 2 = [] then [.small_talk] else found_sorted.take 2

/-! ## Response dispatch of `core/dialog.py` -/

/-- The response handlers of `core/dialog.py`, abstracted as tags: each tag
stands for the fixed message text the corresponding `h_*` function returns. -/
inductive Handler
  | h_crisis | h_panic | h_health | h_anxiety | h_low_mood | h_stress
  | h_lonely | h_relationship | h_work_school | h_finance | h_sleep
  | h_boredom | h_planning | h_gratitude | h_smalltalk
deriving DecidableEq, Repr

/-- The `INTENT_HANDLERS` mapping of `core/dialog.py`. -/
def INTENT_HANDLERS : IntentLabel → Handler
  | .crisis_risk => .h_crisis
  | .panic_attack => .h_panic
  | .health_concern => .h_health
  | .anxiety_worry => .h_anxiety
  | .low_mood_depression => .h_low_mood
  | .stress_overwhelm => .h_stress
  | .loneliness_isolation => .h_lonely
  | .relationship_conflict => .h_relationship
  | .work_school_performance => .h_work_school
  | .financial_stress => .h_finance
  | .sleep_issue => .h_sleep
  | .boredom_motivation => .h_boredom
  | .planning_productivity => .h_planning
  | .gratitude_reflection => .h_gratitude
  | .small_talk => .h_smalltalk

/-- `handle_turn` of `core/dialog.py`: crisis/panic/health return their single
handler; otherwise the up-to-two handler fragments are joined (the joined
message is abstracted as the list of its fragments, in order). -/
def handle_turn (user_text : String) : List Handler :=
  let intents := detect_intents user_text
  if intents = [.crisis_risk] then [.h_crisis]
  else if intents = [.panic_attack] then [.h_panic]
  else if intents = [.health_concern] then [.h_health]
  else (intents.map INTENT_HANDLERS).take 2

/-! ## Mood pre-screen and offer helpers of `app.py` -/

/-- Mood labels of `MOOD_PATTERNS` in `app.py`. -/
inductive Mood
  | anxious | sad | stressed | lonely | unwell
deriving DecidableEq, Repr

/-- `MOOD_PATTERNS` of `app.py`, in dictionary insertion order (the patterns
are compiled with `re.I`, embedded by matching on the lower-cased text). -/
def MOOD_PATTERNS : List (Mood × RPat) :=
  [(.anxious,
     [lits "anxious", lits "anxiety", lits "panic", lits "panic attack",
      lits "nervous"]),
   (.sad,
     [lits "sad", lits "down", lits "depressed", lits "low mood",
      lits "hopeless"]),
   (.stressed,
     [lits "stress" ++ [.optStr ['e', 'd']], lits "overwhelmed",
      lits "burn" ++ [.optStr ['e', 'd'], .optStr [' ']] ++ lits "out",
      lits "too much"]),
   (.lonely,
     [lits "lonely", lits "alone", lits "isolated"]),
   (.unwell,
     [lits "not feeling well", lits "feel unwell", lits "sick", lits "ill",
      lits "not ok", lits "not okay"])]

/-- `detect_mood` of `app.py`: first mood whose pattern matches, else none. -/
def detect_mood (text : String) : Option Mood :=
  (MOOD_PATTERNS.find? (fun mp => rxSearch mp.2 (lowerStr text))).map (·.1)

/-- Python `str.strip()`: drop whitespace at both ends. -/
def pyStrip (cs : List Char) : List Char :=
  ((cs.dropWhile Char.isWhitespace).reverse.dropWhile Char.isWhitespace).reverse

/-- Boolean prefix test on character lists. -/
def startsWith : List Char → List Char → Bool
  | [], _ => true
  | _ :: _, [] => false
  | a :: as, b :: bs => a = b && startsWith as bs

/-- Python substring containment `needle in hay`. -/
def isSubstr (needle : List Char) : List Char → Bool
  | [] => startsWith needle []
  | c :: cs => startsWith needle (c :: cs) || isSubstr needle cs

/-- The affirmation words of `_is_affirmation` in `app.py`
(with `ok(?:ay)?` expanded). -/
def affWords : List (List Char) :=
  (["sure", "yes", "yeah", "yup", "ok", "okay", "alright", "please",
    "go ahead"].map String.toList)

/-- Tail of an affirmation after the matched word: an optional dot (`\.?`)
followed by whitespace only (`\s*` then end of input, as `re.fullmatch`
requires). -/
def affTail : List Char → Bool
  | '.' :: r => r.all Char.isWhitespace
  | r => r.all Char.isWhitespace

/-- `_is_affirmation` of `app.py`:
`re.fullmatch` of `\s*(sure|yes|yeah|yup|ok(?:ay)?|alright|please|go ahead)\.?\s*`
with `re.I`. -/
def is_affirmation (t : String) : Bool :=
  let cs := (lowerStr t).dropWhile Char.isWhitespace
  affWords.any (fun w =>
    match dropLit w cs with
    | some r => affTail r
    | none => false)

/-- Numeric value of a digit run. -/
def natOfDigits (ds : List Char) : Nat :=
  ds.foldl (fun acc c => acc * 10 + (c.toNat - '0'.toNat)) 0

/-- The unit alternatives of `_extract_minutes`. -/
def minuteUnits : List (List Char) :=
  (["min", "minute", "minutes", "m"].map String.toList)

/-- Try to match `(\d+)\s*(min|minute|minutes|m)\b` at this position and
return the value of the digit group. -/
def tryMinutesAt (cs : List Char) : Option Nat :=
  let ds := cs.takeWhile Char.isDigit
  let rest := cs.dropWhile Char.isDigit
  if ds = [] then none
  else if (wsTails rest).any (fun r2 =>
            minuteUnits.any (fun u =>
              match dropLit u r2 with
              | some r3 => endB r3
              | none => false))
  then some (natOfDigits ds) else none

/-- Leftmost scan of `re.search` for `_extract_minutes`. -/
def extractMinutesGo : List Char → Option Nat
  | [] => none
  | c :: cs =>
      match tryMinutesAt (c :: cs) with
      | some n => some n
      | none => extractMinutesGo cs

/-- `_extract_minutes` of `app.py`: first `(\d+)\s*(min|minute|minutes|m)\b`
match, else the default (10 at the call site). -/
def extract_minutes (t : String) (default_min : Nat) : Nat :=
  match extractMinutesGo (lowerStr t) with
  | some n => n
  | none => default_min

/-! ## Chat-section offer state machine of `app.py` -/

/-- The `pending_offer` session key: absent, `"timer_or_journal"`, or
`"await_journal_text"`. -/
inductive OfferState
  | noOffer | timer_or_journal | await_journal_text
deriving DecidableEq, Repr

/-- The reply produced for a chat turn, abstracted as the branch taken:
* `journal_added` — "Added to your journal. Want a weekly summary?"
* `ask_note` — "Tell me the note to add and I will save it."
* `timer_cmd mins msgs` — the branch that computes
  `handle_turn("start a {mins} minute focus timer")`; `mins` is the extracted
  duration and `msgs` the resulting handler fragments;
* `ask_journal_text` — "Okay, what should I add to your journal?"
* `ask_choice` — the re-ask of the timer-or-journal choice;
* `empathy mood` — `empathetic_reply(mood, prompt)`;
* `handled msgs` — `handle_turn(prompt)`. -/
inductive Reply
  | journal_added
  | ask_note
  | timer_cmd (mins : Nat) (msgs : List Handler)
  | ask_journal_text
  | ask_choice
  | empathy (mood : Mood)
  | handled (msgs : List Handler)
deriving DecidableEq, Repr

/-- Is the reply the branch that issues the start-timer dispatch? -/
def isTimerCmd : Reply → Bool
  | .timer_cmd _ _ => true
  | _ => false

/-- Outcome of one chat turn: the reply branch, the next offer state, and the
journal entries appended during the turn. -/
structure TurnOut where
  reply : Reply
  pending : OfferState
  journalAdds : List String
deriving DecidableEq, Repr

/-- The synthesized prompt `f"start a {mins} minute focus timer"`. -/
def synthTimerPrompt (mins : Nat) : String :=
  "start a " ++ toString mins ++ " minute focus timer"

/-- Condition of the timer branch: `"timer" in txt or "focus" in txt` over
`txt = prompt.lower().strip()`. -/
def wantsTimer (prompt : String) : Bool :=
  let txt := pyStrip (lowerStr prompt)
  isSubstr ("timer".toList) txt || isSubstr ("focus".toList) txt

/-- Condition of the journal branch: `"journal" in txt or "note" in txt`. -/
def wantsJournal (prompt : String) : Bool :=
  let txt := pyStrip (lowerStr prompt)
  isSubstr ("journal".toList) txt || isSubstr ("note".toList) txt

/-- One chat turn of the `Chat` section of `app.py` (the branch on
`pending_offer`, reached when `prompt` is non-empty): the offer state
machine, with the mood pre-screen in the no-offer case. -/
def chat_step (pending : OfferState) (prompt : String) : TurnOut :=
  match pending with
  | .await_journal_text =>
      let note := pyStrip prompt.toList
      if note ≠ [] then
        ⟨.journal_added, .noOffer, [String.mk note]⟩
      else
        ⟨.ask_note, .await_journal_text, []⟩
  | .timer_or_journal =>
      if wantsTimer prompt then
        let mins := extract_minutes prompt 10
        ⟨.timer_cmd mins (handle_turn (synthTimerPrompt mins)), .noOffer, []⟩
      else if wantsJournal prompt then
        ⟨.ask_journal_text, .await_journal_text, []⟩
      else if is_affirmation prompt then
        ⟨.ask_choice, .timer_or_journal, []⟩
      else
        ⟨.handled (handle_turn prompt), .noOffer, []⟩
  | .noOffer =>
      match detect_mood prompt with
      | some mood => ⟨.empathy mood, .timer_or_journal, []⟩
      | none => ⟨.handled (handle_turn prompt), .noOffer, []⟩

/-! ## `FocusTimer` of `core/tools.py`

Wall-clock time is an explicit integer `now` (seconds); each method returns
the updated dataclass. -/

/-- The `FocusTimer` dataclass of `core/tools.py`. -/
structure FocusTimer where
  running : Bool := false
  paused : Bool := false
  duration_sec : Int := 0
  end_time : Int := 0
  remaining_sec : Int := 0
deriving DecidableEq, Repr

namespace FocusTimer

/-- `FocusTimer.start`: always re-initializes, clamping the duration up to at
least 60 seconds. -/
def start (_ : FocusTimer) (now minutes : Int) : FocusTimer :=
  let d := max 60 (minutes * 60)
  { duration_sec := d, end_time := now + d, running := true, paused := false,
    remaining_sec := d }

/-- `FocusTimer.pause`: only acts when running and not paused; snapshots the
remaining seconds. -/
def pause (t : FocusTimer) (now : Int) : FocusTimer :=
  if t.running && !t.paused then
    { t with paused := true, remaining_sec := max 0 (t.end_time - now) }
  else t

/-- `FocusTimer.resume`: only acts when running and paused; re-derives the
end time from the snapshot. -/
def resume (t : FocusTimer) (now : Int) : FocusTimer :=
  if t.running && t.paused then
    { t with end_time := now + t.remaining_sec, paused := false }
  else t

/-- `FocusTimer.stop`: resets every field. -/
def stop (_ : FocusTimer) : FocusTimer :=
  { running := false, paused := false, duration_sec := 0, end_time := 0,
    remaining_sec := 0 }

/-- `FocusTimer.progress_ratio` (the returned float is embedded as a
rational). -/
def progress_ratio (t : FocusTimer) (now : Int) : ℚ :=
  if !t.running then 0
  else
    let total : Int := max 1 t.duration_sec
    let done : Int :=
      if t.paused then total - t.remaining_sec
      else total - max 0 (t.end_time - now)
    max 0 (min 1 ((done : ℚ) / (total : ℚ)))

end FocusTimer

/-- The message of `FocusTimer.status_text`, abstracted as its branch
(`remaining`/`pausedRemaining` carry the mm:ss split of the remaining
seconds, computed as Python `divmod(·, 60)`, i.e. floor division). -/
inductive StatusMsg
  | idle
  | completed
  | remaining (m s : Int)
  | pausedRemaining (m s : Int)
deriving DecidableEq, Repr

/-- `FocusTimer.status_text`: the returned message together with the timer
state after the call (the source mutates `self`; the one mutation is the
self-expiry `self.stop()`). -/
def FocusTimer.status_text (t : FocusTimer) (now : Int) :
    StatusMsg × FocusTimer :=
  if !t.running then (.idle, t)
  else if t.paused then
    (.pausedRemaining (t.remaining_sec.ediv 60) (t.remaining_sec.emod 60), t)
  else
    let left := max 0 (t.end_time - now)
    if left = 0 then (.completed, t.stop)
    else (.remaining (left.ediv 60) (left.emod 60), t)

/-- Observable remaining time of the timer at instant `now`: the snapshot
when paused, `max 0 (end_time - now)` when running (the quantity
`pause` would snapshot). -/
def FocusTimer.remainingAt (t : FocusTimer) (now : Int) : Int :=
  if t.paused then t.remaining_sec else max 0 (t.end_time - now)

/-! ## Streak computation of `app.py` -/

/-- The `while cur in days_with_entry` loop of
`compute_7day_streak_from_journal`, over the finite set of entry dates
(dates as integer day numbers).  The source loops over the fixed set; the
erasure of the visited day is the termination measure and does not change
the result, because every later membership test is at a strictly smaller
day (`streakGo_erase_of_lt` below). -/
def streakGo (days : Finset ℤ) (cur : ℤ) : ℕ :=
  if cur ∈ days then 1 + streakGo (days.erase cur) (cur - 1) else 0
termination_by days.card
decreasing_by exact Finset.card_erase_lt_of_mem (by assumption)

/-- `compute_7day_streak_from_journal` of `app.py`, abstracted over the set
of distinct entry dates (`{j.ts.date() for j in rows}`) and today. -/
def compute_7day_streak_from_journal (days : Finset ℤ) (today : ℤ) : ℕ :=
  streakGo days today

/-! ## Theorems -/

/-- C5: `progress_ratio` returns 0 when the timer is not running; when
running (not paused) it returns `clamp((total - max(0, endEpoch - now)) /
total, 0, 1)` and when paused `clamp((total - remainingSeconds) / total,
0, 1)` with `total = duration_sec` (the `max 1` division guard being
unreachable under the invariant `totalSeconds ≥ 60` whenever running, which
`start` establishes); and the result always lies in `[0, 1]`. -/
theorem progress_ratio_spec (t : FocusTimer) (now : Int)
    (hinv : t.running = true → 60 ≤ t.duration_sec) :
    (t.running = false → t.progress_ratio now = 0) ∧
    (t.running = true → t.paused = true →
      t.progress_ratio now =
        max 0 (min 1 (((t.duration_sec - t.remaining_sec : Int) : ℚ) /
          ((t.duration_sec : Int) : ℚ)))) ∧
    (t.running = true → t.paused = false →
      t.progress_ratio now =
        max 0 (min 1 (((t.duration_sec - max 0 (t.end_time - now) : Int) : ℚ) /
          ((t.duration_sec : Int) : ℚ)))) ∧
    (0 ≤ t.progress_ratio now ∧ t.progress_ratio now ≤ 1) ∧
    (∀ (u : FocusTimer) (n m : Int),
      (u.start n m).running = true ∧ 60 ≤ (u.start n m).duration_sec) := by
  have hbounds : 0 ≤ t.progress_ratio now ∧ t.progress_ratio now ≤ 1 := by
    unfold FocusTimer.progress_ratio
    rcases hr : t.running with _ | _
    · simp
    · simp only [Bool.not_true, Bool.false_eq_true, if_false]
      constructor
      · exact le_max_left 0 _
      · exact max_le (by norm_num) (min_le_left 1 _)
  refine ⟨?_, ?_, ?_, hbounds, ?_⟩
  · intro hr
    unfold FocusTimer.progress_ratio
    rw [hr]
    simp
  · intro hr hp
    have hd : (60 : Int) ≤ t.duration_sec := hinv hr
    have htot : max 1 t.duration_sec = t.duration_sec :=
      max_eq_right (by omega)
    unfold FocusTimer.progress_ratio
    rw [hr, hp]
    simp only [Bool.not_true, Bool.false_eq_true, if_false, if_true, htot]
  · intro hr hp
    have hd : (60 : Int) ≤ t.duration_sec := hinv hr
    have htot : max 1 t.duration_sec = t.duration_sec :=
      max_eq_right (by omega)
    unfold FocusTimer.progress_ratio
    rw [hr, hp]
    simp only [Bool.not_true, Bool.false_eq_true, if_false, htot]
  · intro u n m
    refine ⟨rfl, le_max_left 60 (m * 60)⟩

/-- Witness for C5: a concrete running timer (10 minutes, half elapsed)
satisfies the invariant and the bounds. -/
theorem progress_ratio_spec_witness :
    0 ≤ FocusTimer.progress_ratio ⟨true, false, 600, 600, 600⟩ 300 ∧
      FocusTimer.progress_ratio ⟨true, false, 600, 600, 600⟩ 300 ≤ 1 :=
  (progress_ratio_spec ⟨true, false, 600, 600, 600⟩ 300 (by decide)).2.2.2.1

/-- C6: `status_text` on a running, non-paused timer whose remaining time
has reached 0 transitions the timer to the all-reset idle state and returns
the completion message; every subsequent `status_text` call on that state
returns the idle message and changes nothing; and `status_text` on a paused
timer returns the remaining mm:ss without any state change. -/
theorem status_text_auto_reset (t : FocusTimer) (now : Int)
    (hr : t.running = true) (hp : t.paused = false)
    (hz : max 0 (t.end_time - now) = 0) :
    t.status_text now = (.completed, t.stop) ∧
    (t.stop).running = false ∧
    (∀ n2 : Int, (t.stop).status_text n2 = (.idle, t.stop)) ∧
    (∀ (u : FocusTimer) (n : Int), u.running = true → u.paused = true →
      u.status_text n =
        (.pausedRemaining (u.remaining_sec.ediv 60) (u.remaining_sec.emod 60),
         u)) := by
  refine ⟨?_, rfl, fun n2 => rfl, ?_⟩
  · unfold FocusTimer.status_text
    rw [hr, hp, hz]
    simp
  · intro u n hur hup
    unfold FocusTimer.status_text
    rw [hur, hup]
    simp

/-- Witness for C6: an expired one-minute timer read at its end instant. -/
theorem status_text_auto_reset_witness :
    FocusTimer.status_text ⟨true, false, 60, 100, 0⟩ 100 =
      (StatusMsg.completed, FocusTimer.stop ⟨true, false, 60, 100, 0⟩) :=
  (status_text_auto_reset ⟨true, false, 60, 100, 0⟩ 100 rfl rfl
    (by decide)).1

/-- C7 fails as stated: `FocusTimer.start` has no upper clamp.  A 500-minute
request (far above the 120-minute maximum configured on the Timer page of
`app.py`) is accepted unchanged, not clamped to `120 * 60` seconds. -/
theorem start_no_upper_clamp_counterexample :
    (FocusTimer.start ⟨false, false, 0, 0, 0⟩ 0 500).duration_sec = 30000 ∧
      ¬((FocusTimer.start ⟨false, false, 0, 0, 0⟩ 0 500).duration_sec ≤
        120 * 60) := by
  constructor
  · decide
  · decide

/-- C7 (amended): `start(minutes)` is valid from every state and always
re-initializes: it sets `totalSeconds = max(60, minutes * 60)`,
`endEpoch = now + totalSeconds`, and enters the running, non-paused phase;
requests of 0 minutes (or fewer) are clamped up to 60 seconds rather than
rejected, while requests above the configured maximum are accepted
unchanged (no upper clamp). -/
theorem start_reinitializes (t : FocusTimer) (now m : Int) :
    t.start now m =
      { running := true, paused := false,
        duration_sec := max 60 (m * 60),
        end_time := now + max 60 (m * 60),
        remaining_sec := max 60 (m * 60) } ∧
    (m ≤ 0 → (t.start now m).duration_sec = 60) ∧
    (120 < m → (t.start now m).duration_sec = m * 60) := by
  refine ⟨rfl, ?_, ?_⟩
  · intro hm
    show max 60 (m * 60) = 60
    exact max_eq_left (by nlinarith)
  · intro hm
    show max 60 (m * 60) = m * 60
    exact max_eq_right (by nlinarith)

/-- Witness for C7 (amended): starting from a paused timer with a 0-minute
request re-initializes and clamps up to 60 seconds. -/
theorem start_reinitializes_witness :
    FocusTimer.start ⟨true, true, 300, 50, 120⟩ 7 0 =
      { running := true, paused := false, duration_sec := 60,
        end_time := 67, remaining_sec := 60 } ∧
    (FocusTimer.start ⟨true, true, 300, 50, 120⟩ 7 0).duration_sec = 60 := by
  have h := start_reinitializes ⟨true, true, 300, 50, 120⟩ 7 0
  exact ⟨by rw [h.1]; decide, h.2.1 (by decide)⟩

/-- C8: `pause` changes nothing unless the timer is running and not paused,
`resume` changes nothing unless running and paused; and a `pause`
immediately followed by `resume` at the same instant returns to the
running, non-paused phase with the observable remaining time unchanged (no
time leaks across the pair), the snapshot being `max 0 (end_time - now)`. -/
theorem pause_resume_no_leak (t : FocusTimer) (now : Int) :
    (¬(t.running = true ∧ t.paused = false) → t.pause now = t) ∧
    (¬(t.running = true ∧ t.paused = true) → t.resume now = t) ∧
    (t.running = true → t.paused = false →
      ((t.pause now).resume now).running = true ∧
      ((t.pause now).resume now).paused = false ∧
      ((t.pause now).resume now).remainingAt now = t.remainingAt now ∧
      ((t.pause now).resume now).remaining_sec = max 0 (t.end_time - now)) := by
  refine ⟨?_, ?_, ?_⟩
  · intro h
    unfold FocusTimer.pause
    rcases hr : t.running with _ | _ <;> rcases hp : t.paused with _ | _ <;>
      simp_all
  · intro h
    unfold FocusTimer.resume
    rcases hr : t.running with _ | _ <;> rcases hp : t.paused with _ | _ <;>
      simp_all
  · intro hr hp
    have hpause : t.pause now =
        { t with paused := true, remaining_sec := max 0 (t.end_time - now) } := by
      unfold FocusTimer.pause
      rw [hr, hp]
      simp
    have hres : (t.pause now).resume now =
        { t with paused := false, end_time := now + max 0 (t.end_time - now), remaining_sec := max 0 (t.end_time - now) } := by
      rw [hpause]
      unfold FocusTimer.resume
      rw [hr]
      simp
    rw [hres]
    refine ⟨hr, rfl, ?_, rfl⟩
    unfold FocusTimer.remainingAt
    rw [hp]
    simp only [Bool.false_eq_true, if_false]
    have : now + max 0 (t.end_time - now) - now = max 0 (t.end_time - now) :=
      add_sub_cancel_left now _
    rw [this, max_eq_right (le_max_left 0 (t.end_time - now))]

/-- Witness for C8: a concrete running timer paused and resumed at `now = 20`
keeps its observable remaining time. -/
theorem pause_resume_no_leak_witness :
    ((FocusTimer.pause ⟨true, false, 600, 50, 600⟩ 20).resume 20).remainingAt
        20 =
      FocusTimer.remainingAt ⟨true, false, 600, 50, 600⟩ 20 :=
  ((pause_resume_no_leak ⟨true, false, 600, 50, 600⟩ 20).2.2 rfl rfl).2.2.1

/-- One unfolding of the streak loop. -/
theorem streakGo_unfold (days : Finset ℤ) (cur : ℤ) :
    streakGo days cur =
      if cur ∈ days then 1 + streakGo (days.erase cur) (cur - 1) else 0 := by
  rw [streakGo]

/-- Erasing a day strictly above the current one never changes the streak:
the loop only tests days `≤ cur`. -/
theorem streakGo_erase_of_lt :
    ∀ (n : ℕ) (days : Finset ℤ), days.card ≤ n → ∀ (a cur : ℤ), cur < a →
      streakGo (days.erase a) cur = streakGo days cur := by
  intro n
  induction n with
  | zero =>
      intro days hcard a cur _
      have hempty : days = ∅ := Finset.card_eq_zero.mp (Nat.le_zero.mp hcard)
      subst hempty
      simp
  | succ n ih =>
      intro days hcard a cur hlt
      rw [streakGo_unfold (days.erase a) cur, streakGo_unfold days cur]
      by_cases hmem : cur ∈ days
      · have hmem' : cur ∈ days.erase a :=
          Finset.mem_erase.mpr ⟨by omega, hmem⟩
        rw [if_pos hmem, if_pos hmem']
        have hcomm : (days.erase a).erase cur = (days.erase cur).erase a :=
          Finset.erase_right_comm
        rw [hcomm]
        have hcard' : (days.erase cur).card ≤ n := by
          have := Finset.card_erase_of_mem hmem
          omega
        rw [ih (days.erase cur) hcard' a (cur - 1) (by omega)]
      · have hmem' : cur ∉ days.erase a := fun h =>
          hmem (Finset.mem_of_mem_erase h)
        rw [if_neg hmem, if_neg hmem']

/-- Characterization of the streak loop: every day in the streak window is
an entry day, the day right past the window is not, and the loop makes at
most `days.card` iterations. -/
theorem streakGo_spec :
    ∀ (n : ℕ) (days : Finset ℤ), days.card ≤ n → ∀ cur : ℤ,
      (∀ i : ℕ, i < streakGo days cur → cur - i ∈ days) ∧
      (cur - (streakGo days cur : ℤ) ∉ days) ∧
      streakGo days cur ≤ days.card := by
  intro n
  induction n with
  | zero =>
      intro days hcard cur
      have hempty : days = ∅ := Finset.card_eq_zero.mp (Nat.le_zero.mp hcard)
      subst hempty
      simp [streakGo]
  | succ n ih =>
      intro days hcard cur
      by_cases hmem : cur ∈ days
      · have hcard' : (days.erase cur).card ≤ n := by
          have := Finset.card_erase_of_mem hmem
          omega
        have hstep : streakGo days cur =
            1 + streakGo (days.erase cur) (cur - 1) := by
          rw [streakGo_unfold days cur, if_pos hmem]
        obtain ⟨h1, h2, h3⟩ := ih (days.erase cur) hcard' (cur - 1)
        refine ⟨?_, ?_, ?_⟩
        · intro i hi
          rw [hstep] at hi
          match i with
          | 0 => simpa using hmem
          | j + 1 =>
              have hj : j < streakGo (days.erase cur) (cur - 1) := by omega
              have := h1 j hj
              have hmem2 : cur - 1 - (j : ℤ) ∈ days :=
                Finset.mem_of_mem_erase this
              have : cur - ((j : ℕ) + 1 : ℕ) = cur - 1 - (j : ℤ) := by
                push_cast
                ring
              rw [this]
              exact hmem2
        · rw [hstep]
          intro hcontra
          apply h2
          have heq : cur - 1 - (streakGo (days.erase cur) (cur - 1) : ℤ) =
              cur - ((1 + streakGo (days.erase cur) (cur - 1) : ℕ) : ℤ) := by
            push_cast
            ring
          rw [heq]
          refine Finset.mem_erase.mpr ⟨?_, hcontra⟩
          have : (0 : ℤ) < ((1 + streakGo (days.erase cur) (cur - 1) : ℕ) : ℤ) := by
            positivity
          omega
        · rw [hstep]
          have := Finset.card_erase_of_mem hmem
          have hpos : 0 < days.card := Finset.card_pos.mpr ⟨cur, hmem⟩
          omega
      · have h0 : streakGo days cur = 0 := by
          rw [streakGo_unfold days cur, if_neg hmem]
        rw [h0]
        exact ⟨fun i hi => absurd hi (by omega), by simpa using hmem, by omega⟩

/-- The streak value is determined by the window property: if the `n` days
ending at `cur` are all present and the next one back is absent, the loop
returns exactly `n`. -/
theorem streakGo_eq_of_window (days : Finset ℤ) (cur : ℤ) (n : ℕ)
    (hin : ∀ i : ℕ, i < n → cur - i ∈ days)
    (hout : cur - (n : ℤ) ∉ days) :
    streakGo days cur = n := by
  obtain ⟨h1, h2, _⟩ := streakGo_spec days.card days le_rfl cur
  rcases Nat.lt_trichotomy (streakGo days cur) n with hlt | heq | hgt
  · exact absurd (hin _ hlt) h2
  · exact heq
  · exact absurd (h1 n hgt) hout

/-- C10: the streak computation, given the set of distinct entry dates and
today, counts consecutive calendar days backwards from today and stops at
the first gap (every day in the window is an entry day, the next one is
not), in at most size-of-set steps; for `{today, today-1, today-2}` it
returns 3 and for `{today, today-2}` it returns 1. -/
theorem compute_streak_spec (days : Finset ℤ) (today : ℤ) :
    (∀ i : ℕ, i < compute_7day_streak_from_journal days today →
      today - i ∈ days) ∧
    (today - (compute_7day_streak_from_journal days today : ℤ) ∉ days) ∧
    compute_7day_streak_from_journal days today ≤ days.card ∧
    (∀ t : ℤ,
      compute_7day_streak_from_journal ({t, t - 1, t - 2} : Finset ℤ) t = 3) ∧
    (∀ t : ℤ,
      compute_7day_streak_from_journal ({t, t - 2} : Finset ℤ) t = 1) := by
  obtain ⟨h1, h2, h3⟩ := streakGo_spec days.card days le_rfl today
  refine ⟨h1, h2, h3, ?_, ?_⟩
  · intro t
    apply streakGo_eq_of_window
    · intro i hi
      interval_cases i <;> simp [Finset.mem_insert]
    · intro hcontra
      rcases Finset.mem_insert.mp hcontra with h | h
      · omega
      · rcases Finset.mem_insert.mp h with h | h
        · omega
        · rw [Finset.mem_singleton] at h
          omega
  · intro t
    apply streakGo_eq_of_window
    · intro i hi
      interval_cases i
      simp
    · intro hcontra
      rcases Finset.mem_insert.mp hcontra with h | h
      · omega
      · rw [Finset.mem_singleton] at h
        omega

/-- Witness for C10: the two example streaks, instantiated at today = 5. -/
theorem compute_streak_spec_witness :
    compute_7day_streak_from_journal ({5, 5 - 1, 5 - 2} : Finset ℤ) 5 = 3 ∧
    compute_7day_streak_from_journal ({5, 5 - 2} : Finset ℤ) 5 = 1 :=
  ⟨(compute_streak_spec (∅ : Finset ℤ) 0).2.2.2.1 5,
   (compute_streak_spec (∅ : Finset ℤ) 0).2.2.2.2 5⟩

/-- The keys of `INTENT_PATTERNS`, in dictionary order, are exactly the
`priority` list (the source lists them in the same order). -/
theorem keys_eq_priority : INTENT_PATTERNS.map (·.1) = priority := by rfl

/-- The priority list has no duplicates. -/
theorem priority_nodup : priority.Nodup := by decide

/-- The `found` list is a sublist of the priority list (same order, no
duplicates, all members topical). -/
theorem foundLabels_sublist (tl : List Char) :
    (foundLabels tl).Sublist priority := by
  have h : (INTENT_PATTERNS.filter (fun kp => rxSearch kp.2 tl)).Sublist
      INTENT_PATTERNS := List.filter_sublist _
  have h2 := h.map (·.1)
  rw [keys_eq_priority] at h2
  exact h2

/-- Filtering a duplicate-free list down to the members of one of its
sublists returns exactly that sublist. -/
theorem filter_contains_eq {α : Type} [DecidableEq α] {sub l : List α}
    (hs : sub.Sublist l) :
    l.Nodup → l.filter (fun x => sub.contains x) = sub := by
  induction hs with
  | slnil => intro _; rfl
  | @cons sub l' a h ih =>
      intro hnd
      have hsplit := List.nodup_cons.mp hnd
      have hna : a ∉ sub := fun hm => hsplit.1 (h.subset hm)
      have pa : sub.contains a = false := by
        rw [Bool.eq_false_iff]
        intro hc
        exact hna (List.elem_iff.mp hc)
      rw [List.filter_cons, pa]
      simp only [Bool.false_eq_true, if_false]
      exact ih hsplit.2
  | @cons₂ sub l' a h ih =>
      intro hnd
      have hsplit := List.nodup_cons.mp hnd
      have pa : (a :: sub).contains a = true :=
        List.elem_iff.mpr (List.mem_cons_self a sub)
      rw [List.filter_cons, pa]
      simp only [if_true]
      have hcongr : l'.filter (fun x => (a :: sub).contains x) =
          l'.filter (fun x => sub.contains x) := by
        apply List.filter_congr
        intro x hx
        have hxa : x ≠ a := fun he => hsplit.1 (he ▸ hx)
        rcases hc : sub.contains x with _ | _
        · rw [Bool.eq_false_iff]
          intro hcc
          rcases List.mem_cons.mp (List.elem_iff.mp hcc) with he | hm
          · exact hxa he
          · have hct : sub.contains x = true := List.elem_iff.mpr hm
            rw [hc] at hct
            exact Bool.false_ne_true hct
        · exact List.elem_iff.mpr
            (List.mem_cons_of_mem a (List.elem_iff.mp hc))
      rw [hcongr, ih hsplit.2]

/-- `detect_intents` with its local `let`s unfolded. -/
theorem detect_intents_eq (text : String) :
    detect_intents text =
      (if rxSearch RISK (lowerStr text) then [.crisis_risk]
       else if rxSearch PANIC (lowerStr text) then [.panic_attack]
       else if rxSearch HEALTH_ALERT (lowerStr text) then [.health_concern]
       else if (priority.filter
           (fun i => (foundLabels (lowerStr text)).contains i)).take 2 = []
         then [.small_talk]
         else (priority.filter
           (fun i => (foundLabels (lowerStr text)).contains i)).take 2) := rfl

/-- In the topical branch the priority filter is the `found` list itself:
dictionary order already is priority order. -/
theorem found_sorted_eq (tl : List Char) :
    priority.filter (fun i => (foundLabels tl).contains i) = foundLabels tl :=
  filter_contains_eq (foundLabels_sublist tl) priority_nodup

/-- `detect_intents` when no escalation pattern matches. -/
theorem detect_intents_topical_eq (text : String)
    (hR : rxSearch RISK (lowerStr text) = false)
    (hP : rxSearch PANIC (lowerStr text) = false)
    (hH : rxSearch HEALTH_ALERT (lowerStr text) = false) :
    detect_intents text =
      (if (foundLabels (lowerStr text)).take 2 = [] then [.small_talk]
       else (foundLabels (lowerStr text)).take 2) := by
  rw [detect_intents_eq, hR, hP, hH, found_sorted_eq]
  simp

/-- C1: whenever the crisis pattern matches (on the lower-cased text, as the
resolver normalizes), `detect_intents` returns exactly `[crisis_risk]`; and
for every input whatsoever, if `crisis_risk`, `panic_attack` or
`health_concern` appears in the result then it is the only label returned. -/
theorem detect_intents_crisis_exclusive (text : String)
    (h : rxSearch RISK (lowerStr text) = true) :
    detect_intents text = [.crisis_risk] ∧
    (∀ (t2 : String) (l : IntentLabel), l ∈ detect_intents t2 →
      (l = .crisis_risk ∨ l = .panic_attack ∨ l = .health_concern) →
      detect_intents t2 = [l]) := by
  constructor
  · rw [detect_intents_eq, h]
    simp
  · intro t2 l hl hcase
    rcases hR : rxSearch RISK (lowerStr t2) with _ | _
    · rcases hP : rxSearch PANIC (lowerStr t2) with _ | _
      · rcases hH : rxSearch HEALTH_ALERT (lowerStr t2) with _ | _
        · -- topical branch: the three escalation labels cannot appear
          rw [detect_intents_topical_eq t2 hR hP hH] at hl ⊢
          exfalso
          have hpr : l ∈ priority := by
            by_cases hcond : (foundLabels (lowerStr t2)).take 2 = []
            · rw [if_pos hcond] at hl
              have : l = .small_talk := List.mem_singleton.mp hl
              rw [this]
              decide
            · rw [if_neg hcond] at hl
              exact (foundLabels_sublist (lowerStr t2)).subset
                (List.mem_of_mem_take hl)
          rcases hcase with hc | hc | hc <;> rw [hc] at hpr <;>
            exact absurd hpr (by decide)
        · have he : detect_intents t2 = [.health_concern] := by
            rw [detect_intents_eq, hR, hP, hH]
            simp
          rw [he] at hl
          rw [he, List.mem_singleton.mp hl]
      · have he : detect_intents t2 = [.panic_attack] := by
          rw [detect_intents_eq, hR, hP]
          simp
        rw [he] at hl
        rw [he, List.mem_singleton.mp hl]
    · have he : detect_intents t2 = [.crisis_risk] := by
        rw [detect_intents_eq, hR]
        simp
      rw [he] at hl
      rw [he, List.mem_singleton.mp hl]

/-- Witness for C1: a crisis phrase co-occurring with topical terms still
resolves to exactly `[crisis_risk]`. -/
theorem detect_intents_crisis_exclusive_witness :
    detect_intents "i am anxious and want to kill myself" =
      [IntentLabel.crisis_risk] :=
  (detect_intents_crisis_exclusive "i am anxious and want to kill myself"
    (by decide)).1

/-- C4: when no escalation pattern matches and at least three topical
patterns match, `detect_intents` returns exactly the first two matched
labels of the fixed priority list (and hence exactly 2 labels), depending
only on the set of matched patterns and never on where the terms occur in
the text; when no topical pattern matches, the result is exactly
`[small_talk]`. -/
theorem detect_intents_topical_pick (text : String)
    (hR : rxSearch RISK (lowerStr text) = false)
    (hP : rxSearch PANIC (lowerStr text) = false)
    (hH : rxSearch HEALTH_ALERT (lowerStr text) = false) :
    (3 ≤ (foundLabels (lowerStr text)).length →
      detect_intents text =
        (priority.filter
          (fun i => (foundLabels (lowerStr text)).contains i)).take 2 ∧
      (detect_intents text).length = 2) ∧
    (foundLabels (lowerStr text) = [] →
      detect_intents text = [.small_talk]) ∧
    (∀ t2 : String, rxSearch RISK (lowerStr t2) = false →
      rxSearch PANIC (lowerStr t2) = false →
      rxSearch HEALTH_ALERT (lowerStr t2) = false →
      foundLabels (lowerStr t2) = foundLabels (lowerStr text) →
      detect_intents t2 = detect_intents text) := by
  refine ⟨?_, ?_, ?_⟩
  · intro hlen
    have hlen2 : ((foundLabels (lowerStr text)).take 2).length = 2 := by
      rw [List.length_take]
      omega
    have hne : (foundLabels (lowerStr text)).take 2 ≠ [] := by
      intro hc
      rw [hc] at hlen2
      simp at hlen2
    have he : detect_intents text = (foundLabels (lowerStr text)).take 2 := by
      rw [detect_intents_topical_eq text hR hP hH, if_neg hne]
    rw [found_sorted_eq]
    exact ⟨he, by rw [he]; exact hlen2⟩
  · intro hnone
    rw [detect_intents_topical_eq text hR hP hH, hnone]
    simp
  · intro t2 hR2 hP2 hH2 hfound
    rw [detect_intents_topical_eq t2 hR2 hP2 hH2,
      detect_intents_topical_eq text hR hP hH, hfound]

/-- Witness for C4: three topical matches, no escalation; the resolver keeps
the first two in priority order. -/
theorem detect_intents_topical_pick_witness :
    detect_intents "anxious lonely sleep" =
      (priority.filter
        (fun i => (foundLabels (lowerStr "anxious lonely sleep")).contains
          i)).take 2 ∧
    (detect_intents "anxious lonely sleep").length = 2 :=
  (detect_intents_topical_pick "anxious lonely sleep" (by decide) (by decide)
    (by decide)).1 (by decide)

/-- The mood pre-screen is the first branch of the no-offer case. -/
theorem chat_noOffer_mood_first (p : String) (mood : Mood)
    (h : detect_mood p = some mood) :
    chat_step .noOffer p = ⟨.empathy mood, .timer_or_journal, []⟩ := by
  simp [chat_step, h]

/-- C2: at the chat entry point with no pending offer, the mood pre-screen
runs before intent resolution: whenever `detect_mood` finds a mood, the turn
is answered with the empathetic mood reply and the offer state is armed to
`AwaitingTimerOrJournal`; in particular, for a text matching both the
crisis pattern and a mood pattern, the empathetic reply is produced while
`handle_turn`, whose result for that text would be the crisis response, is
not what answers the turn. -/
theorem chat_mood_preempts_crisis :
    (∀ (p : String) (mood : Mood), detect_mood p = some mood →
      chat_step .noOffer p = ⟨.empathy mood, .timer_or_journal, []⟩) ∧
    rxSearch RISK (lowerStr "i feel anxious and want to kill myself") = true ∧
    detect_mood "i feel anxious and want to kill myself" =
      some Mood.anxious ∧
    chat_step .noOffer "i feel anxious and want to kill myself" =
      ⟨.empathy .anxious, .timer_or_journal, []⟩ ∧
    handle_turn "i feel anxious and want to kill myself" = [.h_crisis] ∧
    Reply.empathy .anxious ≠ Reply.handled [.h_crisis] := by
  refine ⟨chat_noOffer_mood_first, by decide, by decide, ?_, by decide,
    by decide⟩
  exact chat_noOffer_mood_first _ _ (by decide)

/-- Witness for C2: the pre-screen conjunct applied at a concrete moody
text. -/
theorem chat_mood_preempts_crisis_witness :
    chat_step .noOffer "i feel sad today" =
      ⟨.empathy Mood.sad, .timer_or_journal, []⟩ :=
  chat_mood_preempts_crisis.1 "i feel sad today" Mood.sad (by decide)

/-- C3 fails as stated on the turn `"20 min"`: after arming the offer, the
turn contains neither `"timer"` nor `"focus"`, so the code clears the state
and routes the turn through normal classification (small talk); no
start-timer action is issued. -/
theorem offer_twenty_min_counterexample :
    chat_step .timer_or_journal "20 min" =
      ⟨.handled [.h_smalltalk], .noOffer, []⟩ ∧
    isTimerCmd (chat_step .timer_or_journal "20 min").reply = false := by
  exact ⟨by decide, by decide⟩

/-- C3 (amended): when the offer state is `AwaitingTimerOrJournal`, a turn
containing a timer/focus keyword extracts an optional duration (default 10
minutes) and issues the start-timer dispatch, clearing the state — in
particular `"timer 20 min"` yields the action for 20 minutes and state
`None`, whereas a bare duration such as `"20 min"` has no timer keyword and
falls through; a journal/note keyword transitions to `AwaitingJournalText`;
a bare affirmation such as `"ok"` leaves the state unchanged and re-asks
the choice; any other turn clears the state and that same turn is
classified normally, so no input is ever discarded. -/
theorem offer_timer_or_journal_spec (p : String) :
    (wantsTimer p = true →
      chat_step .timer_or_journal p =
        ⟨.timer_cmd (extract_minutes p 10)
          (handle_turn (synthTimerPrompt (extract_minutes p 10))),
         .noOffer, []⟩) ∧
    (wantsTimer p = false → wantsJournal p = true →
      chat_step .timer_or_journal p =
        ⟨.ask_journal_text, .await_journal_text, []⟩) ∧
    (wantsTimer p = false → wantsJournal p = false →
      is_affirmation p = true →
      chat_step .timer_or_journal p =
        ⟨.ask_choice, .timer_or_journal, []⟩) ∧
    (wantsTimer p = false → wantsJournal p = false →
      is_affirmation p = false →
      chat_step .timer_or_journal p =
        ⟨.handled (handle_turn p), .noOffer, []⟩) ∧
    chat_step .timer_or_journal "timer 20 min" =
      ⟨.timer_cmd 20 (handle_turn (synthTimerPrompt 20)), .noOffer, []⟩ ∧
    chat_step .timer_or_journal "ok" =
      ⟨.ask_choice, .timer_or_journal, []⟩ := by
  refine ⟨?_, ?_, ?_, ?_, by decide, by decide⟩
  · intro h1
    simp [chat_step, h1]
  · intro h1 h2
    simp [chat_step, h1, h2]
  · intro h1 h2 h3
    simp [chat_step, h1, h2, h3]
  · intro h1 h2 h3
    simp [chat_step, h1, h2, h3]

/-- Witness for C3 (amended): a journal choice transitions to awaiting the
journal text. -/
theorem offer_timer_or_journal_spec_witness :
    chat_step .timer_or_journal "journal it" =
      ⟨.ask_journal_text, .await_journal_text, []⟩ :=
  (offer_timer_or_journal_spec "journal it").2.1 (by decide) (by decide)

/-- C9: when the offer state is `AwaitingJournalText`, a turn whose trimmed
text is non-empty appends exactly that trimmed text as a journal entry,
clears the state, and replies with the weekly-summary offer; a
whitespace-only turn re-prompts, keeps the state, and appends nothing. -/
theorem await_journal_text_spec (p : String) :
    (pyStrip p.toList ≠ [] →
      chat_step .await_journal_text p =
        ⟨.journal_added, .noOffer, [String.mk (pyStrip p.toList)]⟩) ∧
    (pyStrip p.toList = [] →
      chat_step .await_journal_text p =
        ⟨.ask_note, .await_journal_text, []⟩) := by
  constructor <;> intro h <;> rw [String.toList] at h <;>
    simp [chat_step, String.toList, h]

/-- Witness for C9: a padded note is saved trimmed, and a blank turn
re-prompts. -/
theorem await_journal_text_spec_witness :
    chat_step .await_journal_text "  felt good today  " =
      ⟨.journal_added, .noOffer,
       [String.mk (pyStrip ("  felt good today  ").toList)]⟩ ∧
    chat_step .await_journal_text "   " =
      ⟨.ask_note, .await_journal_text, []⟩ :=
  ⟨(await_journal_text_spec "  felt good today  ").1 (by decide),
   (await_journal_text_spec "   ").2 (by decide)⟩
